import Mathlib

/-!
# clear-transcript — verification of the transcript retrieval core

Shallow embedding of the tiered transcript retrieval pipeline of the
`clear-transcript` browser extension, together with proofs of the
testable properties stated in its specification.

Embedded source files (TypeScript → Lean):
* `src/transcript/pipeline.ts` — `getTranscript`, `cancelActivePoll`,
  `startTierCInBackground`, `pollForCompletion` and the `activePolls`
  registry (an operational small-step model of the single-threaded
  event loop);
* `src/transcript/tier-b-fallback.ts` — `getTierBFallback`;
* `src/transcript/tier-c-backend.ts` — `submitForTranscription`,
  `checkTranscriptionStatus`, `cancelTranscription`;
* `src/background/cache-manager.ts` — `getCachedTranscript`,
  `cacheTranscript`, `getTTLForResult`;
* `src/content/index.ts` — `handleVideoChange` (operation trace).

Conventions of the embedding:
* JavaScript `async` functions are split at their `await` points: the
  synchronous prefix is one Lean function, each continuation another;
  the event loop is a `step` function driven by an externally chosen
  list of `Event`s (which network response arrives, when a timer
  fires), so every interleaving the single-threaded runtime can
  produce is a `run` over some event list.
* Network and DOM results are oracle parameters: the embedding models
  the control flow of the code for every possible outcome of the
  external calls it makes.
* `onUpdate` callback invocations are recorded in an `updates` trace
  rather than executed; claims about "the callback is (not) invoked"
  are claims about that trace.
* Timestamps and durations are `Nat` milliseconds (the code only ever
  adds and compares them; no claim computes with fractional times).
-/

set_option linter.unusedVariables false

namespace ClearTranscript

/-! ## Data model (`src/types/index.ts`) -/

/-- The `TranscriptLine`: `{ start, duration, text }`. Times are modelled
as `Nat`; no verified claim computes with the numeric values. -/
structure TranscriptLine where
  start : Nat
  duration : Nat
  text : String
deriving DecidableEq, Repr

/-- Chapter marker `{ title, start }` extracted from the description. -/
structure Chapter where
  title : String
  start : Nat
deriving DecidableEq, Repr

/-- Tier A `source` discriminator. -/
inductive ASource where
  | youtubeCaptions
  | youtubeAutoGenerated
deriving DecidableEq, Repr

/-- The `TierAResult` (tier `'A'` is implicit in the variant).
`availableTracks` carries the other language tracks as (code, display
name) pairs; it is opaque payload for every verified claim. -/
structure TierAResult where
  source : ASource
  transcript : List TranscriptLine
  language : String
  languageName : String
  availableTracks : List (String × String) := []
deriving DecidableEq, Repr

/-- The `TierBResult` (tier `'B'`, source `'fallback-partial'` implicit).
`description` and `chapters` are optional exactly as in the source. -/
structure TierBResult where
  description : Option String := none
  chapters : Option (List Chapter) := none
  isPartial : Bool
deriving DecidableEq, Repr

/-- Tier C `status` field. -/
inductive CStatus where
  | processing
  | complete
  | error
deriving DecidableEq, Repr

/-- The `TierCResult` (tier `'C'`, source `'server-transcription'`
implicit in the variant). -/
structure TierCResult where
  transcript : List TranscriptLine
  status : CStatus
  error : Option String := none
deriving DecidableEq, Repr

/-- The `TranscriptResult`: the tagged union over the three tiers,
discriminated in the source by the `tier` field. -/
inductive TranscriptResult where
  | tierA (a : TierAResult)
  | tierB (b : TierBResult)
  | tierC (c : TierCResult)
deriving DecidableEq, Repr

/-- The `tier` discriminator string of a result. -/
def TranscriptResult.tier : TranscriptResult → String
  | .tierA _ => "A"
  | .tierB _ => "B"
  | .tierC _ => "C"

/-! ## Cache manager (`src/background/cache-manager.ts`)

`chrome.storage.local` is modelled as an association list from string
keys to `CacheEntry` values, passed in and returned explicitly; the
removal that `getCachedTranscript` performs on an expired entry shows
up as the returned store. -/

/-- The `CacheEntry`: `{ videoId, result, timestamp, ttl }`. -/
structure CacheEntry where
  videoId : String
  result : TranscriptResult
  timestamp : Nat
  ttl : Nat
deriving DecidableEq, Repr

/-- The persistent store (`chrome.storage.local`) restricted to the
cache keys: `ct_cache_<videoId> ↦ entry`. -/
abbrev CacheStore := List (String × CacheEntry)

/-- Key prefix `CACHE_KEY_PREFIX = 'ct_cache_'`. -/
def CACHE_KEY_PREFIX : String := "ct_cache_"

/-- Store lookup (`chrome.storage.local.get(key)`). -/
def storeGet : CacheStore → String → Option CacheEntry
  | [], _ => none
  | (k, v) :: rest, key => if k = key then some v else storeGet rest key

/-- Store removal (`chrome.storage.local.remove(key)`). -/
def storeRemove (s : CacheStore) (key : String) : CacheStore :=
  s.filter (fun p => p.1 ≠ key)

/-- Store write (`chrome.storage.local.set({ [key]: entry })`). -/
def storeSet (s : CacheStore) (key : String) (e : CacheEntry) : CacheStore :=
  storeRemove s key ++ [(key, e)]

/-- The `getTTLForResult` (cache-manager.ts lines 143–151): lookup of
`result.tier` in the literal `TIER_TTL` table with JavaScript
`|| TIER_TTL.A` defaulting. The tier is taken as the raw string so
that the defensive default for unrecognized tiers is expressible. -/
def getTTLForResult (tier : String) : Nat :=
  let TIER_TTL : List (String × Nat) :=
    [("A", 24 * 60 * 60 * 1000),
     ("B", 1 * 60 * 60 * 1000),
     ("C", 7 * 24 * 60 * 60 * 1000)]
  match storeLookup TIER_TTL tier with
  | some t => t
  | none => 24 * 60 * 60 * 1000
where
  /-- The `Record<string, number>` property access. -/
  storeLookup : List (String × Nat) → String → Option Nat
    | [], _ => none
    | (k, v) :: rest, key => if k = key then some v else storeLookup rest key

/-- The `getCachedTranscript` (cache-manager.ts lines 14–38): read the
entry for `videoId`; absent ⇒ `null`; expired
(`Date.now() > entry.timestamp + entry.ttl`) ⇒ remove and `null`;
otherwise the cached result. `now` stands for `Date.now()`; the
returned store reflects the side effect of `removeCacheEntry`. -/
def getCachedTranscript (store : CacheStore) (now : Nat) (videoId : String) :
    Option TranscriptResult × CacheStore :=
  let key := CACHE_KEY_PREFIX ++ videoId
  match storeGet store key with
  | none => (none, store)
  | some entry =>
      if entry.timestamp + entry.ttl < now then
        (none, storeRemove store key)
      else
        (some entry.result, store)

/-- The `cacheTranscript` (cache-manager.ts lines 43–63): store
`{videoId, result, timestamp: now, ttl: getTTLForResult(result)}`
under `ct_cache_<videoId>`. The expiry index (`updateCacheIndex`) is
not modelled; no verified claim reads it. -/
def cacheTranscript (store : CacheStore) (now : Nat) (videoId : String)
    (result : TranscriptResult) : CacheStore :=
  let key := CACHE_KEY_PREFIX ++ videoId
  let ttl := getTTLForResult result.tier
  storeSet store key { videoId := videoId, result := result, timestamp := now, ttl := ttl }

/-! ## Adapter C (`src/transcript/tier-c-backend.ts`)

`isValidBackendUrl` wraps the WHATWG `URL` constructor (an external
runtime facility), so it is passed as an oracle `valid : String →
Bool`; every verified claim depends only on *where* the check is
performed, never on which strings pass it. Each operation returns its
result together with the list of network requests it attempted
(`fetch` calls issued), so "without attempting a network request" is
a statement about that list. The resolution of an attempted request
is again an oracle. -/

/-- Outcome of an attempted `fetch` as seen by `tier-c-backend.ts`:
either the promise rejects (network failure / invalid URL / abort),
or a response arrives with an ok/404 classification and a parsed
`BackendResponse` body. -/
inductive FetchOutcome where
  | reject (msg : String)
  | notFound
  | notOk (statusCode : Nat)
  | ok (body : TierCResult)
deriving DecidableEq, Repr

/-- The `submitForTranscription` (tier-c-backend.ts lines 35–83 of the
file, cited as 109–157): validate the URL first; invalid ⇒ immediate
`error` result, no request; otherwise `POST {backendUrl}/api/transcribe`
whose outcome is the oracle `out`. Second component: endpoints
requested. -/
def submitForTranscription (valid : String → Bool) (videoId backendUrl : String)
    (out : FetchOutcome) : TierCResult × List String :=
  if valid backendUrl = false then
    ({ transcript := [], status := .error, error := some "Invalid backend URL" }, [])
  else
    let attempted := [backendUrl ++ "/api/transcribe"]
    match out with
    | .reject msg => ({ transcript := [], status := .error, error := some msg }, attempted)
    | .notFound =>
        ({ transcript := [], status := .error, error := some "Backend error: 404" }, attempted)
    | .notOk code =>
        ({ transcript := [], status := .error,
           error := some ("Backend error: " ++ toString code) }, attempted)
    | .ok body => (body, attempted)

/-- The `checkTranscriptionStatus` (tier-c-backend.ts, cited as lines
162–219): validate the URL first; invalid ⇒ immediate `error` result,
no request; otherwise `GET {backendUrl}/api/transcript/{videoId}`;
a 404 maps to `error` / "Transcript not found". -/
def checkTranscriptionStatus (valid : String → Bool) (videoId backendUrl : String)
    (out : FetchOutcome) : TierCResult × List String :=
  if valid backendUrl = false then
    ({ transcript := [], status := .error, error := some "Invalid backend URL" }, [])
  else
    let attempted := [backendUrl ++ "/api/transcript/" ++ videoId]
    match out with
    | .reject msg => ({ transcript := [], status := .error, error := some msg }, attempted)
    | .notFound =>
        ({ transcript := [], status := .error, error := some "Transcript not found" }, attempted)
    | .notOk code =>
        ({ transcript := [], status := .error,
           error := some ("Backend error: " ++ toString code) }, attempted)
    | .ok body => (body, attempted)

/-- The `cancelTranscription` (tier-c-backend.ts lines 282–298): the
source performs **no** URL validation — it unconditionally attempts
`DELETE {backendUrl}/api/transcribe/{videoId}` and returns
`response.ok`, or `false` when the fetch rejects. The `valid` oracle
is accepted for signature uniformity but, exactly as in the source,
never consulted. -/
def cancelTranscription (valid : String → Bool) (videoId backendUrl : String)
    (out : FetchOutcome) : Bool × List String :=
  let attempted := [backendUrl ++ "/api/transcribe/" ++ videoId]
  match out with
  | .reject _ => (false, attempted)
  | .notFound => (false, attempted)
  | .notOk _ => (false, attempted)
  | .ok _ => (true, attempted)

/-! ## Adapter B (`src/transcript/tier-b-fallback.ts`) -/

/-- The `getTierBFallback` (tier-b-fallback.ts lines 13–37), as a function
of the values produced by the DOM extractors `extractDescription()`
(a string, empty when nothing was found) and `extractChapters()` (a
list). JavaScript truthiness: `!description` holds exactly for the
empty string, `description || undefined` maps `""` to `undefined`,
and `chapters.length > 0 ? chapters : undefined` keeps only non-empty
lists. (The surrounding `try/catch` concerns exceptions thrown by the
extractors themselves, i.e. before any values are extracted, and is
outside this value-level embedding.) -/
def getTierBFallback (description : String) (chapters : List Chapter) :
    Option TierBResult :=
  if description = "" ∧ chapters.length = 0 then
    none
  else
    some { description := if description = "" then none else some description,
           chapters := if chapters.length > 0 then some chapters else none,
           isPartial := true }

/-! ## Pipeline orchestrator, synchronous path
(`src/transcript/pipeline.ts`, `getTranscript`, lines 35–109)

The `await`ed results of the collaborator calls are oracle
parameters: `tierA` is what `getTierATranscript` resolved to, `tierB`
what `getTierBFallback` resolved to, `checkOutcome`/`submitOutcome`
what `checkTranscriptionStatus`/`submitForTranscription` resolved to
(both never reject). `backendUrl` is `settings.backendUrl`
(`string | null`); `hasOnUpdate` is whether an update callback was
supplied. Alongside the returned result, the list of operations the
call performed is recorded in order. -/

/-- Operations `getTranscript` can perform, in program order. -/
inductive PipelineOp where
  | callTierA
  | callTierB
  | callCheckStatus
  | callSubmit
  | startBackgroundTierC
  | startPollLoop
deriving DecidableEq, Repr

/-- JavaScript truthiness of `settings.backendUrl : string | null`. -/
def truthyUrl : Option String → Bool
  | none => false
  | some s => s ≠ ""

/-- The synthesized empty-fallback result of pipeline.ts lines
101–108. -/
def emptyFallbackResult : TierBResult :=
  { description := some ("No transcript available. Configure a transcription backend " ++
      "in settings for automatic transcription."),
    chapters := none,
    isPartial := true }

/-- The `getTranscript` (pipeline.ts lines 35–109): tier A, else tier B
(+ background tier C when a backend is configured), else tier C
(status check, optional submit, optional poll), else the synthesized
empty Tier B result. -/
def getTranscript (tierA : Option TierAResult) (tierB : Option TierBResult)
    (backendUrl : Option String) (checkOutcome : TierCResult)
    (submitOutcome : TierCResult) (hasOnUpdate : Bool) :
    TranscriptResult × List PipelineOp :=
  match tierA with
  | some a => (.tierA a, [.callTierA])
  | none =>
    match tierB with
    | some b =>
        if truthyUrl backendUrl then
          (.tierB b, [.callTierA, .callTierB, .startBackgroundTierC])
        else
          (.tierB b, [.callTierA, .callTierB])
    | none =>
        if truthyUrl backendUrl then
          let existing := checkOutcome
          if existing.status = .complete then
            (.tierC existing, [.callTierA, .callTierB, .callCheckStatus])
          else if existing.status ≠ .processing then
            (.tierC submitOutcome,
              [.callTierA, .callTierB, .callCheckStatus, .callSubmit] ++
                (if hasOnUpdate then [.startPollLoop] else []))
          else
            (.tierC existing,
              [.callTierA, .callTierB, .callCheckStatus] ++
                (if hasOnUpdate then [.startPollLoop] else []))
        else
          (.tierB emptyFallbackResult, [.callTierA, .callTierB])

/-! ## Content script video-change step (`src/content/index.ts`,
`handleVideoChange`, lines 71–86)

The handler's body is modelled as its updated `currentVideoId` state
plus the ordered trace of collaborator operations it performs. The
operation vocabulary includes `cancelActivePoll`, which the pipeline
module exports for exactly this handler (ADR 002), so that its
absence from the trace is a statement, not a modelling artifact. -/

/-- Operations the content script's video-change step can perform. -/
inductive ContentOp where
  | opCancelActivePoll (videoId : String)
  | opHandlePageStateChange
  | opFetchTranscript (videoId : String)
deriving DecidableEq, Repr

/-- The `handleVideoChange(videoId)` (content/index.ts lines 71–86):
returns unchanged on same video; otherwise updates `currentVideoId`,
runs the page-state update, and — when the new id is non-null —
fetches the new transcript (`fetchTranscript`, which calls
`getTranscript`). No `cancelActivePoll` call occurs anywhere in the
handler (the content script does not even import it). -/
def handleVideoChange (currentVideoId : Option String) (videoId : Option String) :
    Option String × List ContentOp :=
  if videoId = currentVideoId then
    (currentVideoId, [])
  else
    (videoId,
      [ContentOp.opHandlePageStateChange] ++
        (match videoId with
         | some v => [ContentOp.opFetchTranscript v]
         | none => []))

/-! ## Poll registry and background flow — operational model
(`src/transcript/pipeline.ts`, lines 12–23 and 125–235)

The module-level `activePolls : Map<string, {cancel}>` plus the
closures created by `pollForCompletion` and `startTierCInBackground`
form a small state machine on the single-threaded event loop. Each
`pollForCompletion` call allocates a `PollInst` (the closure state
`cancelled` / `attempts` / `timeoutId` plus the captured arguments);
each `startTierCInBackground` call allocates a `BgInst` recording
which `await` it is suspended at. Instances are addressed by their
allocation index into `polls` / `bgs` (a closure is never freed, it
merely becomes quiescent). `Event`s are the things the environment
decides: which external call the caller makes, which in-flight
response resolves, which pending timer fires. -/

/-- Closure state of one `pollForCompletion` activation:
`cancelled`, `attempts`, whether a `setTimeout` is pending
(`timeoutId !== null` and not yet fired), and whether a
`checkTranscriptionStatus` promise is in flight, plus the captured
arguments. -/
structure PollInst where
  videoId : String
  backendUrl : String
  maxAttempts : Nat
  intervalMs : Nat
  cancelled : Bool
  attempts : Nat
  timerPending : Bool
  requestPending : Bool
deriving DecidableEq, Repr

/-- Which `await` a `startTierCInBackground` activation is suspended
at: its initial `checkTranscriptionStatus`, its
`submitForTranscription`, or finished. -/
inductive BgPhase where
  | awaitingCheck
  | awaitingSubmit
  | done
deriving DecidableEq, Repr

/-- Closure state of one `startTierCInBackground` activation. -/
structure BgInst where
  videoId : String
  backendUrl : String
  hasOnUpdate : Bool
  phase : BgPhase
deriving DecidableEq, Repr

/-- Who invoked `onUpdate`: a poll-loop closure or a background-flow
closure, by allocation index. -/
inductive UpdSrc where
  | poll (pid : Nat)
  | bg (bid : Nat)
deriving DecidableEq, Repr

/-- One recorded `onUpdate` invocation: source closure, the videoId
it was polling for, and the delivered Tier C result. -/
structure UpdateEvent where
  src : UpdSrc
  videoId : String
  result : TierCResult
deriving DecidableEq, Repr

/-- Resolution of an in-flight `checkTranscriptionStatus` (or
`submitForTranscription`) promise: the Tier C result it fulfils with,
or a rejection. (`tier-c-backend.ts` catches everything and fulfils,
but the poll loop's own `try/catch` is defensive; the model keeps
both cases.) -/
inductive CheckOutcome where
  | ok (r : TierCResult)
  | exn (msg : String)
deriving DecidableEq, Repr

/-- Global state: all ever-allocated poll closures, all ever-allocated
background-flow closures, the `activePolls` map (insertion-ordered,
unique keys as a JS `Map`), and the trace of `onUpdate` invocations. -/
structure SysState where
  polls : List PollInst
  bgs : List BgInst
  activePolls : List (String × Nat)
  updates : List UpdateEvent
deriving DecidableEq, Repr

/-- The state at module load: empty registry, nothing allocated. -/
def initState : SysState := ⟨[], [], [], []⟩

/-- The `Map.get` on `activePolls`. -/
def mapLookup : List (String × Nat) → String → Option Nat
  | [], _ => none
  | (k, v) :: rest, key => if k = key then some v else mapLookup rest key

/-- The `Map.delete` on `activePolls`. -/
def mapDelete (m : List (String × Nat)) (k : String) : List (String × Nat) :=
  m.filter (fun p => p.1 ≠ k)

/-- The `Map.set` on `activePolls` (key becomes present exactly once). -/
def mapSet (m : List (String × Nat)) (k : String) (v : Nat) : List (String × Nat) :=
  mapDelete m k ++ [(k, v)]

/-- Number of registry entries for a key (1 for a JS `Map` holding
it, 0 otherwise — stated over the list so "at most one live handle"
is a theorem, not a definition). -/
def countKey (m : List (String × Nat)) (k : String) : Nat :=
  (m.filter (fun p => p.1 = k)).length

/-- The handle's `cancel` closure (pipeline.ts lines 171–178): set
`cancelled`, clear any pending timer, delete *its own* `videoId` from
the registry. -/
def cancelClosure (s : SysState) (pid : Nat) : SysState :=
  match s.polls[pid]? with
  | none => s
  | some p =>
      { s with
        polls := s.polls.set pid { p with cancelled := true, timerPending := false },
        activePolls := mapDelete s.activePolls p.videoId }

/-- The `cancelActivePoll` (pipeline.ts lines 17–23): look the videoId up
in the registry; when present, invoke the handle's cancel and delete
the registry entry; otherwise do nothing. -/
def cancelActivePollS (s : SysState) (videoId : String) : SysState :=
  match mapLookup s.activePolls videoId with
  | none => s
  | some pid =>
      let s1 := cancelClosure s pid
      { s1 with activePolls := mapDelete s1.activePolls videoId }

/-- The timeout `error` result delivered on attempt exhaustion
(pipeline.ts lines 189–195). -/
def timeoutResult : TierCResult :=
  { transcript := [], status := .error, error := some "Transcription timeout" }

/-- The synchronous prefix of one `poll()` activation (pipeline.ts
lines 181–200, up to the `await`): return silently when cancelled;
on attempt exhaustion deregister and deliver the timeout error; else
issue `checkTranscriptionStatus` (request becomes in-flight). -/
def pollBody (s : SysState) (pid : Nat) : SysState :=
  match s.polls[pid]? with
  | none => s
  | some p =>
      if p.cancelled then s
      else if p.maxAttempts ≤ p.attempts then
        { s with
          activePolls := mapDelete s.activePolls p.videoId,
          updates := s.updates ++ [(⟨.poll pid, p.videoId, timeoutResult⟩ : UpdateEvent)] }
      else
        { s with polls := s.polls.set pid { p with requestPending := true } }

/-- The `pollForCompletion` (pipeline.ts lines 155–235): cancel any
existing poll for the videoId, allocate and register a fresh closure,
then run the first `poll()` activation synchronously. -/
def pollForCompletionS (s : SysState) (videoId backendUrl : String)
    (maxAttempts intervalMs : Nat) : SysState :=
  let s1 := cancelActivePollS s videoId
  let pid := s1.polls.length
  let inst : PollInst :=
    { videoId := videoId, backendUrl := backendUrl, maxAttempts := maxAttempts,
      intervalMs := intervalMs, cancelled := false, attempts := 0,
      timerPending := false, requestPending := false }
  let s2 :=
    { s1 with
      polls := s1.polls ++ [inst],
      activePolls := mapSet s1.activePolls videoId pid }
  pollBody s2 pid

/-- The continuation of `poll()` after its `await
checkTranscriptionStatus` resolves (pipeline.ts lines 200–231):
re-check `cancelled`; deliver the result; on `processing` increment
`attempts` and schedule the next activation; on a terminal status
deregister; a rejection is caught, deregisters and delivers an
`error` result. Fires only when a request is actually in flight. -/
def respondPollS (s : SysState) (pid : Nat) (out : CheckOutcome) : SysState :=
  match s.polls[pid]? with
  | none => s
  | some p =>
      if p.requestPending = false then s
      else
        let p0 := { p with requestPending := false }
        let s0 := { s with polls := s.polls.set pid p0 }
        if p.cancelled then s0
        else
          match out with
          | .ok r =>
              let s1 := { s0 with
                updates := s0.updates ++ [(⟨.poll pid, p.videoId, r⟩ : UpdateEvent)] }
              if r.status = .processing then
                { s1 with
                  polls := s1.polls.set pid
                    { p0 with attempts := p0.attempts + 1, timerPending := true } }
              else
                { s1 with activePolls := mapDelete s1.activePolls p.videoId }
          | .exn msg =>
              { s0 with
                activePolls := mapDelete s0.activePolls p.videoId,
                updates := s0.updates ++
                  [⟨.poll pid, p.videoId,
                    { transcript := [], status := .error, error := some msg }⟩] }

/-- A pending `setTimeout(poll, intervalMs)` fires: the timer is
consumed and the next `poll()` activation runs. -/
def fireTimerS (s : SysState) (pid : Nat) : SysState :=
  match s.polls[pid]? with
  | none => s
  | some p =>
      if p.timerPending = false then s
      else pollBody { s with polls := s.polls.set pid { p with timerPending := false } } pid

/-- The synchronous prefix of `startTierCInBackground` (pipeline.ts
lines 125–150): it immediately awaits `checkTranscriptionStatus`, so
starting it just allocates a closure suspended at that await. -/
def startTierCInBackgroundS (s : SysState) (videoId backendUrl : String)
    (hasOnUpdate : Bool) : SysState :=
  { s with bgs := s.bgs ++ [(⟨videoId, backendUrl, hasOnUpdate, .awaitingCheck⟩ : BgInst)] }

/-- Continuation of `startTierCInBackground` after its status check
resolves (pipeline.ts lines 132–146): on `complete`, invoke
`onUpdate?.(existing)` — with **no** cancellation guard — and finish;
on a non-`processing` status, await `submitForTranscription`; on
`processing`, start the poll loop (default arguments 60 / 5000) when
a callback is present; a rejection is caught by the surrounding
`try/catch` and finishes the flow. -/
def respondBgCheckS (s : SysState) (bid : Nat) (out : CheckOutcome) : SysState :=
  match s.bgs[bid]? with
  | none => s
  | some b =>
      if b.phase ≠ BgPhase.awaitingCheck then s
      else
        match out with
        | .ok r =>
            if r.status = .complete then
              let s1 := { s with bgs := s.bgs.set bid { b with phase := .done } }
              if b.hasOnUpdate then
                { s1 with updates := s1.updates ++ [(⟨.bg bid, b.videoId, r⟩ : UpdateEvent)] }
              else s1
            else if r.status ≠ .processing then
              { s with bgs := s.bgs.set bid { b with phase := .awaitingSubmit } }
            else
              let s1 := { s with bgs := s.bgs.set bid { b with phase := .done } }
              if b.hasOnUpdate then
                pollForCompletionS s1 b.videoId b.backendUrl 60 5000
              else s1
        | .exn _ => { s with bgs := s.bgs.set bid { b with phase := .done } }

/-- Continuation of `startTierCInBackground` after its
`submitForTranscription` resolves (pipeline.ts lines 140–146): the
submission result is discarded; the poll loop starts when a callback
is present; a rejection is caught and finishes the flow. -/
def respondBgSubmitS (s : SysState) (bid : Nat) (out : CheckOutcome) : SysState :=
  match s.bgs[bid]? with
  | none => s
  | some b =>
      if b.phase ≠ BgPhase.awaitingSubmit then s
      else
        let s1 := { s with bgs := s.bgs.set bid { b with phase := .done } }
        match out with
        | .ok _ =>
            if b.hasOnUpdate then
              pollForCompletionS s1 b.videoId b.backendUrl 60 5000
            else s1
        | .exn _ => s1

/-- Environment choices: calls made into the module, response
resolutions, timer firings. -/
inductive Event where
  | startPoll (videoId backendUrl : String) (maxAttempts intervalMs : Nat)
  | cancelActive (videoId : String)
  | startBg (videoId backendUrl : String) (hasOnUpdate : Bool)
  | fireTimer (pid : Nat)
  | respondPoll (pid : Nat) (out : CheckOutcome)
  | respondBgCheck (bid : Nat) (out : CheckOutcome)
  | respondBgSubmit (bid : Nat) (out : CheckOutcome)
deriving DecidableEq, Repr

/-- One event-loop turn. -/
def step (s : SysState) : Event → SysState
  | .startPoll vid url maxA itv => pollForCompletionS s vid url maxA itv
  | .cancelActive vid => cancelActivePollS s vid
  | .startBg vid url h => startTierCInBackgroundS s vid url h
  | .fireTimer pid => fireTimerS s pid
  | .respondPoll pid out => respondPollS s pid out
  | .respondBgCheck bid out => respondBgCheckS s bid out
  | .respondBgSubmit bid out => respondBgSubmitS s bid out

/-- Run a schedule of events. -/
def run (s : SysState) : List Event → SysState
  | [] => s
  | e :: es => run (step s e) es

/-! ## Generic helper lemmas -/

theorem run_append (s : SysState) (l l' : List Event) :
    run s (l ++ l') = run (run s l) l' := by
  induction l generalizing s with
  | nil => rfl
  | cons e es ih => simp [run, ih]

theorem getElem?_lt {α : Type _} {l : List α} {n : Nat} {a : α}
    (h : l[n]? = some a) : n < l.length := by
  rw [List.getElem?_eq_some] at h
  exact h.1

theorem mapLookup_append_right (a b : List (String × Nat)) (k : String)
    (h : mapLookup a k = none) : mapLookup (a ++ b) k = mapLookup b k := by
  induction a with
  | nil => rfl
  | cons hd tl ih =>
      obtain ⟨k', v⟩ := hd
      by_cases hk : k' = k
      · simp [mapLookup, hk] at h
      · simp only [mapLookup, if_neg hk] at h ⊢
        exact ih h

theorem mapLookup_delete_self (m : List (String × Nat)) (k : String) :
    mapLookup (mapDelete m k) k = none := by
  induction m with
  | nil => rfl
  | cons hd tl ih =>
      obtain ⟨k', v⟩ := hd
      by_cases hk : k' = k
      · simpa [mapDelete, hk] using ih
      · simpa [mapDelete, mapLookup, hk] using ih

theorem mapLookup_set_self (m : List (String × Nat)) (k : String) (v : Nat) :
    mapLookup (mapSet m k v) k = some v := by
  unfold mapSet
  rw [mapLookup_append_right _ _ _ (mapLookup_delete_self m k)]
  simp [mapLookup]

theorem countKey_delete_self (m : List (String × Nat)) (k : String) :
    countKey (mapDelete m k) k = 0 := by
  induction m with
  | nil => rfl
  | cons hd tl ih =>
      obtain ⟨k', v⟩ := hd
      by_cases hk : k' = k
      · simpa [mapDelete, hk] using ih
      · simp only [mapDelete, countKey, List.filter] at ih ⊢
        simp [hk, ih]

theorem countKey_set_self (m : List (String × Nat)) (k : String) (v : Nat) :
    countKey (mapSet m k v) k = 1 := by
  have h := countKey_delete_self m k
  unfold countKey at h ⊢
  unfold mapSet
  rw [List.filter_append, List.length_append, h]
  simp

theorem storeGet_append_right (a b : CacheStore) (k : String)
    (h : storeGet a k = none) : storeGet (a ++ b) k = storeGet b k := by
  induction a with
  | nil => rfl
  | cons hd tl ih =>
      obtain ⟨k', v⟩ := hd
      by_cases hk : k' = k
      · simp [storeGet, hk] at h
      · simp only [storeGet, List.cons_append, if_neg hk] at h ⊢
        exact ih h

theorem storeGet_remove_self (s : CacheStore) (k : String) :
    storeGet (storeRemove s k) k = none := by
  induction s with
  | nil => rfl
  | cons hd tl ih =>
      obtain ⟨k', v⟩ := hd
      by_cases hk : k' = k
      · simpa [storeRemove, hk] using ih
      · simpa [storeRemove, storeGet, hk] using ih

theorem storeGet_set_self (s : CacheStore) (k : String) (e : CacheEntry) :
    storeGet (storeSet s k e) k = some e := by
  unfold storeSet
  rw [storeGet_append_right _ _ _ (storeGet_remove_self s k)]
  simp [storeGet]

theorem filter_replicate_false {α : Type _} (f : α → Bool) (a : α) (h : f a = false)
    (n : Nat) : (List.replicate n a).filter f = [] := by
  induction n with
  | zero => rfl
  | succ n ih => simp [List.replicate_succ, List.filter, h, ih]

/-! ## Cancellation is permanent and silencing

Once a poll closure's `cancelled` flag is set, every later event-loop
turn leaves it set and never lets that closure invoke `onUpdate`
again: its entry guard and its post-`await` re-check both return
before the callback. The lemmas below state this per semantic
function and chain it over arbitrary schedules. -/

/-- Update-trace entries attributed to poll closure `pid`. -/
def fromPoll (pid : Nat) (u : UpdateEvent) : Bool :=
  u.src = UpdSrc.poll pid

/-- Poll closure `pid` exists and its `cancelled` flag is set. -/
def CancelledIn (l : List PollInst) (pid : Nat) : Prop :=
  ∃ p, l[pid]? = some p ∧ p.cancelled = true

/-- The `CancelledIn` over a system state's closures. -/
def CancelledAt (s : SysState) (pid : Nat) : Prop :=
  CancelledIn s.polls pid

theorem cancelledIn_set {l : List PollInst} {pid : Nat} (h : CancelledIn l pid)
    (i : Nat) (q : PollInst) (hq : i = pid → q.cancelled = true) :
    CancelledIn (l.set i q) pid := by
  obtain ⟨p, hp, hc⟩ := h
  by_cases hip : i = pid
  · subst hip
    exact ⟨q, by simp [List.getElem?_set_self (getElem?_lt hp)], hq rfl⟩
  · exact ⟨p, by rw [List.getElem?_set_ne hip]; exact hp, hc⟩

theorem cancelledIn_append {l : List PollInst} {pid : Nat} (h : CancelledIn l pid)
    (l' : List PollInst) : CancelledIn (l ++ l') pid := by
  obtain ⟨p, hp, hc⟩ := h
  exact ⟨p, by rw [List.getElem?_append_left (getElem?_lt hp)]; exact hp, hc⟩

theorem cancelled_of_eq {l : List PollInst} {pid i : Nat} {q : PollInst}
    (h : CancelledIn l pid) (hgi : l[i]? = some q) (he : i = pid) :
    q.cancelled = true := by
  subst he
  obtain ⟨p, hp, hc⟩ := h
  rw [hgi] at hp
  cases hp
  exact hc

theorem cancelClosure_silent (s : SysState) (i pid : Nat) (h : CancelledAt s pid) :
    CancelledAt (cancelClosure s i) pid ∧ (cancelClosure s i).updates = s.updates := by
  unfold cancelClosure
  cases hgi : s.polls[i]? with
  | none => exact ⟨h, rfl⟩
  | some q => exact ⟨cancelledIn_set h i _ (fun _ => rfl), rfl⟩

theorem cancelActivePollS_silent (s : SysState) (vid : String) (pid : Nat)
    (h : CancelledAt s pid) :
    CancelledAt (cancelActivePollS s vid) pid ∧
    (cancelActivePollS s vid).updates = s.updates := by
  unfold cancelActivePollS
  cases hml : mapLookup s.activePolls vid with
  | none => exact ⟨h, rfl⟩
  | some i => exact cancelClosure_silent s i pid h

theorem pollBody_silent (s : SysState) (i pid : Nat) (h : CancelledAt s pid) :
    CancelledAt (pollBody s i) pid ∧
    (pollBody s i).updates.filter (fromPoll pid) = s.updates.filter (fromPoll pid) := by
  unfold pollBody
  cases hgi : s.polls[i]? with
  | none => exact ⟨h, rfl⟩
  | some q =>
      simp only []
      by_cases hqc : q.cancelled = true
      · rw [if_pos hqc]
        exact ⟨h, rfl⟩
      · have hiq : i ≠ pid := fun he => hqc (cancelled_of_eq h hgi he)
        rw [if_neg hqc]
        by_cases hatt : q.maxAttempts ≤ q.attempts
        · rw [if_pos hatt]
          refine ⟨h, ?_⟩
          show (s.updates ++ [(⟨.poll i, q.videoId, timeoutResult⟩ : UpdateEvent)]).filter
              (fromPoll pid) = s.updates.filter (fromPoll pid)
          simp [List.filter_append, fromPoll, hiq]
        · rw [if_neg hatt]
          exact ⟨cancelledIn_set h i _ (fun he => absurd he hiq), rfl⟩

theorem pollForCompletionS_silent (s : SysState) (vid url : String)
    (maxA itv pid : Nat) (h : CancelledAt s pid) :
    CancelledAt (pollForCompletionS s vid url maxA itv) pid ∧
    (pollForCompletionS s vid url maxA itv).updates.filter (fromPoll pid)
      = s.updates.filter (fromPoll pid) := by
  have h1 := cancelActivePollS_silent s vid pid h
  set s1 := cancelActivePollS s vid with hs1
  have h2 : CancelledAt
      { s1 with
        polls := s1.polls ++
          [{ videoId := vid, backendUrl := url, maxAttempts := maxA,
             intervalMs := itv, cancelled := false, attempts := 0,
             timerPending := false, requestPending := false }],
        activePolls := mapSet s1.activePolls vid s1.polls.length } pid :=
    cancelledIn_append h1.1 _
  have h3 := pollBody_silent _ s1.polls.length pid h2
  refine ⟨h3.1, ?_⟩
  rw [pollForCompletionS]
  rw [h3.2]
  simpa using congrArg (fun l => l.filter (fromPoll pid)) h1.2

theorem respondPollS_silent (s : SysState) (i pid : Nat) (out : CheckOutcome)
    (h : CancelledAt s pid) :
    CancelledAt (respondPollS s i out) pid ∧
    (respondPollS s i out).updates.filter (fromPoll pid)
      = s.updates.filter (fromPoll pid) := by
  unfold respondPollS
  cases hgi : s.polls[i]? with
  | none => exact ⟨h, rfl⟩
  | some q =>
      simp only []
      by_cases hreq : q.requestPending = false
      · rw [if_pos hreq]
        exact ⟨h, rfl⟩
      · rw [if_neg hreq]
        have hset : CancelledIn (s.polls.set i { q with requestPending := false }) pid :=
          cancelledIn_set h i _
            (fun he => show q.cancelled = true from cancelled_of_eq h hgi he)
        by_cases hqc : q.cancelled = true
        · rw [if_pos hqc]
          exact ⟨hset, rfl⟩
        · have hiq : i ≠ pid := fun he => hqc (cancelled_of_eq h hgi he)
          rw [if_neg hqc]
          cases out with
          | ok r =>
              simp only []
              by_cases hst : r.status = CStatus.processing
              · rw [if_pos hst]
                refine ⟨cancelledIn_set hset i _ (fun he => absurd he hiq), ?_⟩
                show ((s.updates ++ [(⟨.poll i, q.videoId, r⟩ : UpdateEvent)]).filter
                    (fromPoll pid)) = s.updates.filter (fromPoll pid)
                simp [List.filter_append, fromPoll, hiq]
              · rw [if_neg hst]
                refine ⟨hset, ?_⟩
                show ((s.updates ++ [(⟨.poll i, q.videoId, r⟩ : UpdateEvent)]).filter
                    (fromPoll pid)) = s.updates.filter (fromPoll pid)
                simp [List.filter_append, fromPoll, hiq]
          | exn msg =>
              simp only []
              refine ⟨hset, ?_⟩
              show ((s.updates ++
                  [(⟨.poll i, q.videoId,
                    { transcript := [], status := .error, error := some msg }⟩ :
                      UpdateEvent)]).filter (fromPoll pid))
                = s.updates.filter (fromPoll pid)
              simp [List.filter_append, fromPoll, hiq]

theorem fireTimerS_silent (s : SysState) (i pid : Nat) (h : CancelledAt s pid) :
    CancelledAt (fireTimerS s i) pid ∧
    (fireTimerS s i).updates.filter (fromPoll pid) = s.updates.filter (fromPoll pid) := by
  unfold fireTimerS
  cases hgi : s.polls[i]? with
  | none => exact ⟨h, rfl⟩
  | some q =>
      simp only []
      by_cases htp : q.timerPending = false
      · rw [if_pos htp]
        exact ⟨h, rfl⟩
      · rw [if_neg htp]
        exact pollBody_silent _ i pid
          (cancelledIn_set h i _
            (fun he => show q.cancelled = true from cancelled_of_eq h hgi he))

theorem startTierCInBackgroundS_silent (s : SysState) (vid url : String)
    (hu : Bool) (pid : Nat) (h : CancelledAt s pid) :
    CancelledAt (startTierCInBackgroundS s vid url hu) pid ∧
    (startTierCInBackgroundS s vid url hu).updates = s.updates :=
  ⟨h, rfl⟩

theorem respondBgCheckS_silent (s : SysState) (bid pid : Nat) (out : CheckOutcome)
    (h : CancelledAt s pid) :
    CancelledAt (respondBgCheckS s bid out) pid ∧
    (respondBgCheckS s bid out).updates.filter (fromPoll pid)
      = s.updates.filter (fromPoll pid) := by
  unfold respondBgCheckS
  cases hgb : s.bgs[bid]? with
  | none => exact ⟨h, rfl⟩
  | some b =>
      simp only []
      by_cases hph : b.phase ≠ BgPhase.awaitingCheck
      · rw [if_pos hph]
        exact ⟨h, rfl⟩
      · rw [if_neg hph]
        cases out with
        | ok r =>
            simp only []
            by_cases hst : r.status = CStatus.complete
            · rw [if_pos hst]
              by_cases hu : b.hasOnUpdate = true
              · rw [if_pos hu]
                refine ⟨h, ?_⟩
                show ((s.updates ++ [(⟨.bg bid, b.videoId, r⟩ : UpdateEvent)]).filter
                    (fromPoll pid)) = s.updates.filter (fromPoll pid)
                simp [List.filter_append, fromPoll]
              · rw [if_neg hu]
                exact ⟨h, rfl⟩
            · rw [if_neg hst]
              by_cases hpr : r.status ≠ CStatus.processing
              · rw [if_pos hpr]
                exact ⟨h, rfl⟩
              · rw [if_neg hpr]
                by_cases hu : b.hasOnUpdate = true
                · rw [if_pos hu]
                  exact pollForCompletionS_silent _ b.videoId b.backendUrl 60 5000 pid h
                · rw [if_neg hu]
                  exact ⟨h, rfl⟩
        | exn msg =>
            simp only []
            exact ⟨h, trivial⟩

theorem respondBgSubmitS_silent (s : SysState) (bid pid : Nat) (out : CheckOutcome)
    (h : CancelledAt s pid) :
    CancelledAt (respondBgSubmitS s bid out) pid ∧
    (respondBgSubmitS s bid out).updates.filter (fromPoll pid)
      = s.updates.filter (fromPoll pid) := by
  unfold respondBgSubmitS
  cases hgb : s.bgs[bid]? with
  | none => exact ⟨h, rfl⟩
  | some b =>
      simp only []
      by_cases hph : b.phase ≠ BgPhase.awaitingSubmit
      · rw [if_pos hph]
        exact ⟨h, rfl⟩
      · rw [if_neg hph]
        cases out with
        | ok r =>
            simp only []
            by_cases hu : b.hasOnUpdate = true
            · rw [if_pos hu]
              exact pollForCompletionS_silent _ b.videoId b.backendUrl 60 5000 pid h
            · rw [if_neg hu]
              exact ⟨h, rfl⟩
        | exn msg =>
            simp only []
            exact ⟨h, trivial⟩

theorem step_silent (s : SysState) (e : Event) (pid : Nat) (h : CancelledAt s pid) :
    CancelledAt (step s e) pid ∧
    (step s e).updates.filter (fromPoll pid) = s.updates.filter (fromPoll pid) := by
  cases e with
  | startPoll vid url maxA itv => exact pollForCompletionS_silent s vid url maxA itv pid h
  | cancelActive vid =>
      have hc := cancelActivePollS_silent s vid pid h
      exact ⟨hc.1, by rw [show (step s (.cancelActive vid)) = cancelActivePollS s vid from rfl,
        hc.2]⟩
  | startBg vid url hu =>
      have hc := startTierCInBackgroundS_silent s vid url hu pid h
      exact ⟨hc.1, by rw [show (step s (.startBg vid url hu)) = startTierCInBackgroundS s vid url hu from rfl, hc.2]⟩
  | fireTimer i => exact fireTimerS_silent s i pid h
  | respondPoll i out => exact respondPollS_silent s i pid out h
  | respondBgCheck bid out => exact respondBgCheckS_silent s bid pid out h
  | respondBgSubmit bid out => exact respondBgSubmitS_silent s bid pid out h

/-- A cancelled poll closure stays cancelled and delivers no update
in any continuation of the execution. -/
theorem run_silent (s : SysState) (evs : List Event) (pid : Nat) (h : CancelledAt s pid) :
    CancelledAt (run s evs) pid ∧
    (run s evs).updates.filter (fromPoll pid) = s.updates.filter (fromPoll pid) := by
  induction evs generalizing s with
  | nil => exact ⟨h, rfl⟩
  | cons e es ih =>
      have hs := step_silent s e pid h
      have hr := ih (step s e) hs.1
      exact ⟨hr.1, by rw [show run s (e :: es) = run (step s e) es from rfl, hr.2, hs.2]⟩

/-! ## The all-`processing` run of a poll loop

The canonical schedule for timeout terminality: one poll is started
and every status check resolves `processing`, every timer fires. -/

/-- The `processing` result every status check resolves with. -/
def procResult : TierCResult :=
  { transcript := [], status := .processing, error := none }

/-- One loop iteration as scheduled events: the in-flight status check
resolves `processing`, then the scheduled timer fires. -/
def roundEvents : List Event :=
  [.respondPoll 0 (.ok procResult), .fireTimer 0]

/-- The `n` consecutive all-`processing` iterations. -/
def roundsN : Nat → List Event
  | 0 => []
  | n + 1 => roundEvents ++ roundsN n

/-- The full schedule: start the poll, then `maxAttempts` rounds. -/
def timeoutSchedule (vid url : String) (maxA itv : Nat) : List Event :=
  Event.startPoll vid url maxA itv :: roundsN maxA

/-- State after the `k`-th status check has been issued (and `k`
`processing` deliveries have happened). -/
def midState (vid url : String) (maxA itv k : Nat) : SysState :=
  { polls := [{ videoId := vid, backendUrl := url, maxAttempts := maxA,
                intervalMs := itv, cancelled := false, attempts := k,
                timerPending := false, requestPending := true }],
    bgs := [], activePolls := [(vid, 0)],
    updates := List.replicate k (⟨.poll 0, vid, procResult⟩ : UpdateEvent) }

/-- Terminal state of the all-`processing` run: deregistered, no timer
or request pending, `maxAttempts` `processing` deliveries followed by
exactly one timeout `error` delivery. -/
def doneState (vid url : String) (maxA itv : Nat) : SysState :=
  { polls := [{ videoId := vid, backendUrl := url, maxAttempts := maxA,
                intervalMs := itv, cancelled := false, attempts := maxA,
                timerPending := false, requestPending := false }],
    bgs := [], activePolls := [],
    updates := List.replicate maxA (⟨.poll 0, vid, procResult⟩ : UpdateEvent)
      ++ [⟨.poll 0, vid, timeoutResult⟩] }

theorem startPoll_initState (vid url : String) (maxA itv : Nat) (h : 0 < maxA) :
    step initState (.startPoll vid url maxA itv) = midState vid url maxA itv 0 := by
  show pollForCompletionS initState vid url maxA itv = _
  unfold pollForCompletionS cancelActivePollS pollBody initState
  simp only [mapLookup, mapSet, mapDelete, List.filter, List.length_nil, List.nil_append,
    List.getElem?_cons_zero]
  rw [if_neg (by simp), if_neg (by omega)]
  rfl

theorem startPoll_initState_zero (vid url : String) (itv : Nat) :
    step initState (.startPoll vid url 0 itv) = doneState vid url 0 itv := by
  show pollForCompletionS initState vid url 0 itv = _
  unfold pollForCompletionS cancelActivePollS pollBody initState
  simp only [mapLookup, mapSet, mapDelete, List.filter, List.length_nil, List.nil_append,
    List.getElem?_cons_zero]
  rw [if_neg (by simp), if_pos (Nat.le_refl 0)]
  simp [doneState, mapDelete]

theorem respondPollS_mid (vid url : String) (maxA itv k : Nat) :
    respondPollS (midState vid url maxA itv k) 0 (.ok procResult)
      = { polls := [{ videoId := vid, backendUrl := url, maxAttempts := maxA,
                      intervalMs := itv, cancelled := false, attempts := k + 1,
                      timerPending := true, requestPending := false }],
          bgs := [], activePolls := [(vid, 0)],
          updates := List.replicate (k + 1) (⟨.poll 0, vid, procResult⟩ : UpdateEvent) } := by
  unfold respondPollS midState
  simp only [List.getElem?_cons_zero]
  rw [if_neg (by simp)]
  rw [if_neg (by simp)]
  simp only [procResult]
  rw [if_pos trivial]
  simp only [List.set_cons_zero]
  rw [← List.replicate_succ' k]

theorem fireTimerS_mid_continue (vid url : String) (maxA itv k : Nat) (h : k + 1 < maxA) :
    fireTimerS
      { polls := [{ videoId := vid, backendUrl := url, maxAttempts := maxA,
                    intervalMs := itv, cancelled := false, attempts := k + 1,
                    timerPending := true, requestPending := false }],
        bgs := [], activePolls := [(vid, 0)],
        updates := List.replicate (k + 1) (⟨.poll 0, vid, procResult⟩ : UpdateEvent) } 0
      = midState vid url maxA itv (k + 1) := by
  unfold fireTimerS pollBody
  simp only [List.getElem?_cons_zero, List.set_cons_zero]
  rw [if_neg (by simp)]
  rw [if_neg (by simp)]
  rw [if_neg (by omega)]
  rfl

theorem fireTimerS_mid_timeout (vid url : String) (maxA itv k : Nat)
    (h : ¬ k + 1 < maxA) (hk : k < maxA) :
    fireTimerS
      { polls := [{ videoId := vid, backendUrl := url, maxAttempts := maxA,
                    intervalMs := itv, cancelled := false, attempts := k + 1,
                    timerPending := true, requestPending := false }],
        bgs := [], activePolls := [(vid, 0)],
        updates := List.replicate (k + 1) (⟨.poll 0, vid, procResult⟩ : UpdateEvent) } 0
      = doneState vid url maxA itv := by
  have hmk : maxA = k + 1 := by omega
  subst hmk
  unfold fireTimerS pollBody
  simp only [List.getElem?_cons_zero, List.set_cons_zero]
  rw [if_neg (by simp)]
  rw [if_neg (by simp)]
  rw [if_pos (Nat.le_refl (k + 1))]
  simp [doneState, mapDelete]

theorem midState_round (vid url : String) (maxA itv k : Nat) (hk : k < maxA) :
    run (midState vid url maxA itv k) roundEvents
      = if k + 1 < maxA then midState vid url maxA itv (k + 1)
        else doneState vid url maxA itv := by
  have hshow : run (midState vid url maxA itv k) roundEvents
      = fireTimerS (respondPollS (midState vid url maxA itv k) 0 (.ok procResult)) 0 := rfl
  rw [hshow, respondPollS_mid]
  by_cases h2 : k + 1 < maxA
  · rw [if_pos h2, fireTimerS_mid_continue vid url maxA itv k h2]
  · rw [if_neg h2, fireTimerS_mid_timeout vid url maxA itv k h2 hk]

theorem midState_rounds (vid url : String) (maxA itv : Nat) :
    ∀ n k, k + n = maxA → 0 < n →
      run (midState vid url maxA itv k) (roundsN n) = doneState vid url maxA itv := by
  intro n
  induction n with
  | zero => intro k h h0; omega
  | succ n ih =>
      intro k hk h0
      rw [show roundsN (n + 1) = roundEvents ++ roundsN n from rfl, run_append]
      have hklt : k < maxA := by omega
      rw [midState_round vid url maxA itv k hklt]
      by_cases hn : n = 0
      · subst hn
        rw [if_neg (by omega)]
        rfl
      · rw [if_pos (by omega)]
        exact ih (k + 1) (by omega) (by omega)

theorem timeoutSchedule_run (vid url : String) (maxA itv : Nat) :
    run initState (timeoutSchedule vid url maxA itv) = doneState vid url maxA itv := by
  cases maxA with
  | zero =>
      rw [show timeoutSchedule vid url 0 itv = [Event.startPoll vid url 0 itv] from rfl]
      simp only [run]
      rw [startPoll_initState_zero]
  | succ m =>
      rw [show timeoutSchedule vid url (m + 1) itv
          = Event.startPoll vid url (m + 1) itv :: roundsN (m + 1) from rfl]
      simp only [run]
      rw [startPoll_initState vid url (m + 1) itv (Nat.succ_pos m)]
      exact midState_rounds vid url (m + 1) itv (m + 1) 0 (by omega) (by omega)

/-! ## Shape lemmas for `cancelActivePoll` and `pollForCompletion` -/

theorem cancelActivePollS_not_found (s : SysState) (vid : String)
    (h : mapLookup s.activePolls vid = none) : cancelActivePollS s vid = s := by
  unfold cancelActivePollS
  rw [h]

theorem cancelActivePollS_updates_eq (s : SysState) (vid : String) :
    (cancelActivePollS s vid).updates = s.updates := by
  unfold cancelActivePollS cancelClosure
  cases hml : mapLookup s.activePolls vid with
  | none => rfl
  | some pid =>
      simp only []
      cases s.polls[pid]? with
      | none => rfl
      | some p => rfl

theorem cancelActivePollS_found (s : SysState) (vid : String) (pid : Nat) (p : PollInst)
    (hreg : mapLookup s.activePolls vid = some pid) (hp : s.polls[pid]? = some p) :
    cancelActivePollS s vid =
      { polls := s.polls.set pid { p with cancelled := true, timerPending := false },
        bgs := s.bgs,
        activePolls := mapDelete (mapDelete s.activePolls p.videoId) vid,
        updates := s.updates } := by
  unfold cancelActivePollS cancelClosure
  rw [hreg]
  simp only []
  rw [hp]

theorem getElem?_set_concat {α : Type _} (l : List α) (i : Nat) (c a : α) :
    ((l.set i c) ++ [a])[l.length]? = some a := by
  have hl : ((l.set i c) ++ [a])[(l.set i c).length]? = some a :=
    List.getElem?_concat_length _ _
  rw [List.length_set] at hl
  exact hl

theorem pollForCompletionS_shape (s : SysState) (vid url : String) (pid : Nat)
    (p : PollInst) (maxA itv : Nat)
    (hreg : mapLookup s.activePolls vid = some pid)
    (hp : s.polls[pid]? = some p) (hmax : 0 < maxA) :
    pollForCompletionS s vid url maxA itv =
      { polls := (s.polls.set pid { p with cancelled := true, timerPending := false }
            ++ [({ videoId := vid, backendUrl := url, maxAttempts := maxA,
                   intervalMs := itv, cancelled := false, attempts := 0,
                   timerPending := false, requestPending := false } : PollInst)]).set
            s.polls.length
            { videoId := vid, backendUrl := url, maxAttempts := maxA,
              intervalMs := itv, cancelled := false, attempts := 0,
              timerPending := false, requestPending := true },
        bgs := s.bgs,
        activePolls := mapSet (mapDelete (mapDelete s.activePolls p.videoId) vid)
          vid s.polls.length,
        updates := s.updates } := by
  unfold pollForCompletionS
  rw [cancelActivePollS_found s vid pid p hreg hp]
  simp only [List.length_set]
  unfold pollBody
  rw [getElem?_set_concat]
  simp only []
  rw [if_neg (by simp)]
  rw [if_neg (by omega)]

/-! ## Claim theorems -/

/-- Claim C4: tier precedence. Whenever Adapter A (the resolved
`getTierATranscript` call) yields a result, `getTranscript` returns
exactly that Tier A result, and the only operation it performs is the
Adapter A call — no Tier B fetch, no `checkStatus`, no `submit`, no
poll start and no background Tier C start, no matter what the other
oracles or the backend configuration are. -/
theorem C4_tier_precedence (a : TierAResult) (tierB : Option TierBResult)
    (backendUrl : Option String) (checkOutcome submitOutcome : TierCResult)
    (hasOnUpdate : Bool) :
    getTranscript (some a) tierB backendUrl checkOutcome submitOutcome hasOnUpdate
      = (TranscriptResult.tierA a, [PipelineOp.callTierA]) ∧
    ((getTranscript (some a) tierB backendUrl checkOutcome submitOutcome hasOnUpdate).2.all
      (fun op => !(op == PipelineOp.callTierB || op == PipelineOp.callCheckStatus ||
        op == PipelineOp.callSubmit || op == PipelineOp.startPollLoop ||
        op == PipelineOp.startBackgroundTierC))) = true :=
  ⟨rfl, rfl⟩

/-- Claim C5: never-empty. When Adapter A reports absence, Adapter B
reports absence and no backend URL is configured (JavaScript-falsy
`settings.backendUrl`), `getTranscript` still returns the synthesized
non-null Tier B result with `isPartial = true` whose description
instructs the user to configure a backend. -/
theorem C5_never_empty (backendUrl : Option String)
    (checkOutcome submitOutcome : TierCResult) (hasOnUpdate : Bool)
    (h : truthyUrl backendUrl = false) :
    getTranscript none none backendUrl checkOutcome submitOutcome hasOnUpdate
      = (TranscriptResult.tierB emptyFallbackResult,
          [PipelineOp.callTierA, PipelineOp.callTierB]) ∧
    emptyFallbackResult.isPartial = true ∧
    emptyFallbackResult.description
      = some ("No transcript available. Configure a transcription backend " ++
          "in settings for automatic transcription.") := by
  refine ⟨?_, rfl, rfl⟩
  unfold getTranscript
  rw [if_neg]
  simp [h]

/-- Witness for C5 at the concrete configuration
`backendUrl = null`. -/
theorem C5_never_empty_witness :
    truthyUrl none = false ∧
    getTranscript none none none procResult procResult false
      = (TranscriptResult.tierB emptyFallbackResult,
          [PipelineOp.callTierA, PipelineOp.callTierB]) :=
  ⟨rfl, (C5_never_empty none procResult procResult false rfl).1⟩

/-- Claim C9: Adapter B absence. `getTierBFallback` returns absence
exactly when the extracted description is empty and the extracted
chapter list is empty; in every other case it returns a Tier B
result with `isPartial = true` carrying whichever of the description
and chapters are non-empty. -/
theorem C9_adapterB_absence (description : String) (chapters : List Chapter) :
    getTierBFallback description chapters =
      (if description = "" ∧ chapters = [] then none
       else some { description := if description = "" then none else some description,
                   chapters := if chapters = [] then none else some chapters,
                   isPartial := true }) := by
  by_cases hd : description = "" <;> cases chapters <;>
    simp [getTierBFallback, hd]

/-- Claim C3 (code_bug evidence): the content script's video-change
step. On a navigation from video "A" to video "B" the handler updates
state, refreshes the UI and immediately fetches the new transcript
(which calls `getTranscript`), and its operation trace contains **no**
`cancelActivePoll` call — contradicting both the specification and the
repository's ADR 002 ("Video change handler calls `cancelActivePoll()`
for previous video"). -/
theorem C3_videoChange_never_cancels :
    handleVideoChange (some "A") (some "B")
      = (some "B", [ContentOp.opHandlePageStateChange, ContentOp.opFetchTranscript "B"]) ∧
    ((handleVideoChange (some "A") (some "B")).2.all
      (fun op => match op with
        | ContentOp.opCancelActivePoll _ => false
        | _ => true)) = true := by
  constructor <;> decide

/-- Claim C7: TTL correctness. The TTL table is A ↦ 24 h, B ↦ 1 h,
C ↦ 7 d with every unrecognized tier string defaulting to A's TTL; an
entry written at `now` is returned by a read at any `tm ≤ now + ttl`
with the store untouched, and a read at any `tm > now + ttl` returns
absence and removes the entry from the store. -/
theorem C7_ttl_correctness (store : CacheStore) (now tm : Nat) (videoId : String)
    (r : TranscriptResult) :
    (getTTLForResult "A" = 24 * 60 * 60 * 1000 ∧
     getTTLForResult "B" = 1 * 60 * 60 * 1000 ∧
     getTTLForResult "C" = 7 * 24 * 60 * 60 * 1000 ∧
     ∀ t : String, t ≠ "A" → t ≠ "B" → t ≠ "C" →
       getTTLForResult t = 24 * 60 * 60 * 1000) ∧
    (tm ≤ now + getTTLForResult r.tier →
      getCachedTranscript (cacheTranscript store now videoId r) tm videoId
        = (some r, cacheTranscript store now videoId r)) ∧
    (now + getTTLForResult r.tier < tm →
      (getCachedTranscript (cacheTranscript store now videoId r) tm videoId).1 = none ∧
      storeGet (getCachedTranscript (cacheTranscript store now videoId r) tm videoId).2
        (CACHE_KEY_PREFIX ++ videoId) = none) := by
  refine ⟨⟨rfl, rfl, rfl, ?_⟩, ?_, ?_⟩
  · intro t h1 h2 h3
    simp [getTTLForResult, getTTLForResult.storeLookup, Ne.symm h1, Ne.symm h2, Ne.symm h3]
  · intro h
    unfold cacheTranscript getCachedTranscript
    simp only []
    rw [storeGet_set_self]
    simp only []
    rw [if_neg (by omega)]
  · intro h
    unfold cacheTranscript getCachedTranscript
    simp only []
    rw [storeGet_set_self]
    simp only []
    rw [if_pos (by omega)]
    exact ⟨rfl, storeGet_remove_self _ _⟩

/-- Witness for C7: a Tier B entry written at time 0 is returned at
time 10, absent and removed at a time past one hour, and an
unrecognized tier string gets Tier A's TTL. -/
theorem C7_ttl_witness :
    getCachedTranscript (cacheTranscript [] 0 "v" (.tierB { isPartial := true })) 10 "v"
      = (some (.tierB { isPartial := true }),
          cacheTranscript [] 0 "v" (.tierB { isPartial := true })) ∧
    (getCachedTranscript (cacheTranscript [] 0 "v" (.tierB { isPartial := true }))
      99999999 "v").1 = none ∧
    getTTLForResult "X" = 24 * 60 * 60 * 1000 :=
  ⟨(C7_ttl_correctness [] 0 10 "v" (.tierB { isPartial := true })).2.1 (by decide),
   ((C7_ttl_correctness [] 0 99999999 "v" (.tierB { isPartial := true })).2.2 (by decide)).1,
   (C7_ttl_correctness [] 0 0 "v" (.tierB { isPartial := true })).1.2.2.2 "X"
     (by decide) (by decide) (by decide)⟩

/-- A concrete stand-in for `isValidBackendUrl` usable in closed
statements: accepts exactly the strings beginning with "http://" or
"https://". On "not-a-url" it agrees with the real check (the WHATWG
`URL` constructor throws on a scheme-less string). -/
def httpUrlCheck (u : String) : Bool :=
  List.isPrefixOf "http://".toList u.toList ||
    List.isPrefixOf "https://".toList u.toList

/-- Claim C8, counterexample: `cancelTranscription` does **not**
validate the backend URL — on the invalid URL "not-a-url" (rejected
by the modelled validity predicate) it still attempts the `DELETE`
network request, returning `false` only because the fetch fails. -/
theorem C8_counterexample :
    httpUrlCheck "not-a-url" = false ∧
    cancelTranscription httpUrlCheck
      "abc" "not-a-url" (.reject "TypeError: Failed to fetch")
      = (false, ["not-a-url/api/transcribe/abc"]) := by
  constructor
  · decide
  · rfl

/-- Claim C8 as amended: `submitForTranscription` and
`checkTranscriptionStatus` validate the backend URL before any network
call and return an immediate `error` result ("Invalid backend URL")
with no request attempted; `cancelTranscription` performs no
validation — it attempts its `DELETE` request for every `backendUrl`
and returns `false` when the request fails. -/
theorem C8_validation_amended (valid : String → Bool) (videoId backendUrl : String)
    (out : FetchOutcome) (h : valid backendUrl = false) :
    submitForTranscription valid videoId backendUrl out
      = ({ transcript := [], status := .error, error := some "Invalid backend URL" }, []) ∧
    checkTranscriptionStatus valid videoId backendUrl out
      = ({ transcript := [], status := .error, error := some "Invalid backend URL" }, []) ∧
    (cancelTranscription valid videoId backendUrl out).2
      = [backendUrl ++ "/api/transcribe/" ++ videoId] ∧
    (∀ msg, cancelTranscription valid videoId backendUrl (.reject msg)
      = (false, [backendUrl ++ "/api/transcribe/" ++ videoId])) := by
  refine ⟨?_, ?_, ?_, fun msg => rfl⟩
  · unfold submitForTranscription
    rw [if_pos h]
  · unfold checkTranscriptionStatus
    rw [if_pos h]
  · cases out <;> rfl

/-- Witness for C8's amended statement at the concrete invalid URL
"not-a-url". -/
theorem C8_validation_witness :
    submitForTranscription (fun _ => false) "abc" "not-a-url" (.reject "x")
      = ({ transcript := [], status := .error, error := some "Invalid backend URL" }, []) ∧
    cancelTranscription (fun _ => false) "abc" "not-a-url" (.reject "x")
      = (false, ["not-a-url/api/transcribe/abc"]) :=
  ⟨(C8_validation_amended (fun _ => false) "abc" "not-a-url" (.reject "x") rfl).1,
   (C8_validation_amended (fun _ => false) "abc" "not-a-url" (.reject "x") rfl).2.2.2 "x"⟩

/-- Claim C10: `cancelActivePoll` is idempotent and
registry-clearing. After one `cancelActivePoll(videoId)` the registry
holds no handle for that videoId; a second invocation is a no-op that
returns the state unchanged; neither invocation delivers any update;
and invoking a registered handle's own `cancel()` likewise leaves no
registry entry for its videoId. -/
theorem C10_cancel_idempotent (s : SysState) (videoId : String) :
    mapLookup (cancelActivePollS s videoId).activePolls videoId = none ∧
    cancelActivePollS (cancelActivePollS s videoId) videoId = cancelActivePollS s videoId ∧
    (cancelActivePollS s videoId).updates = s.updates ∧
    (∀ pid p, mapLookup s.activePolls videoId = some pid → s.polls[pid]? = some p →
      p.videoId = videoId →
      mapLookup (cancelClosure s pid).activePolls videoId = none) := by
  have h1 : mapLookup (cancelActivePollS s videoId).activePolls videoId = none := by
    unfold cancelActivePollS
    cases hml : mapLookup s.activePolls videoId with
    | none => exact hml
    | some pid =>
        simp only []
        exact mapLookup_delete_self _ _
  refine ⟨h1, cancelActivePollS_not_found _ _ h1, cancelActivePollS_updates_eq s videoId, ?_⟩
  intro pid p hml hp hv
  unfold cancelClosure
  rw [hp]
  simp only []
  rw [hv]
  exact mapLookup_delete_self _ _

/-- Shared concrete state for witnesses: one poll registered for
video "v" with its first status check in flight. -/
def witnessState : SysState := run initState [.startPoll "v" "u" 60 5000]

/-- Witness for C10 at a concrete state holding a registered
handle. -/
theorem C10_cancel_idempotent_witness :
    mapLookup (cancelActivePollS witnessState "v").activePolls "v" = none ∧
    mapLookup (cancelClosure witnessState 0).activePolls "v" = none :=
  ⟨(C10_cancel_idempotent witnessState "v").1,
   (C10_cancel_idempotent witnessState "v").2.2.2 0
     ⟨"v", "u", 60, 5000, false, 0, false, true⟩ (by decide) (by decide) (by decide)⟩

/-- Claim C1, counterexample: cancellation does **not** silence the
background Tier C flow. Schedule: `startTierCInBackground` for video
"A" issues its status check; `cancelActivePoll("A")` runs (a no-op —
the background flow holds no registry handle yet, and no update has
been delivered); then the status check, issued before the
cancellation, resolves `complete` — and the flow invokes the update
callback for "A" after the cancellation. -/
theorem C1_counterexample :
    (run initState [.startBg "A" "http://backend" true, .cancelActive "A"]).updates
      = [] ∧
    (run initState [.startBg "A" "http://backend" true, .cancelActive "A",
        .respondBgCheck 0 (.ok ⟨[], .complete, none⟩)]).updates
      = [⟨.bg 0, "A", ⟨[], .complete, none⟩⟩] := by
  constructor <;> decide

/-- Claim C1 as amended: after `cancelActivePoll(videoId)`, the poll
loop whose handle was registered for that videoId at cancellation
time delivers no subsequent update under any continuation of the
execution — even if its status check was in flight — and the registry
entry is removed; a background Tier C flow whose status check is in
flight is not governed by the registry until its poll loop starts, so
it may still deliver one `complete` update (and start a new poll)
after the cancellation. -/
theorem C1_cancel_silences_registered_poll (s : SysState) (videoId : String)
    (pid : Nat) (p : PollInst) (evs : List Event)
    (hreg : mapLookup s.activePolls videoId = some pid)
    (hp : s.polls[pid]? = some p) :
    mapLookup (cancelActivePollS s videoId).activePolls videoId = none ∧
    (cancelActivePollS s videoId).updates = s.updates ∧
    (run (cancelActivePollS s videoId) evs).updates.filter (fromPoll pid)
      = s.updates.filter (fromPoll pid) := by
  have h1 := cancelActivePollS_found s videoId pid p hreg hp
  refine ⟨?_, cancelActivePollS_updates_eq s videoId, ?_⟩
  · rw [h1]
    exact mapLookup_delete_self _ _
  · have hca : CancelledAt (cancelActivePollS s videoId) pid := by
      rw [h1]
      exact ⟨_, List.getElem?_set_self (getElem?_lt hp), rfl⟩
    have hrs := run_silent _ evs pid hca
    rw [hrs.2, h1]

/-- Witness for C1's amended statement: the registered poll of
`witnessState` is cancelled and its in-flight response, resolving
afterwards, delivers nothing. -/
theorem C1_cancel_silences_witness :
    (run (cancelActivePollS witnessState "v")
        [.respondPoll 0 (.ok ⟨[], .complete, none⟩)]).updates.filter (fromPoll 0)
      = witnessState.updates.filter (fromPoll 0) :=
  (C1_cancel_silences_registered_poll witnessState "v" 0
    ⟨"v", "u", 60, 5000, false, 0, false, true⟩
    [.respondPoll 0 (.ok ⟨[], .complete, none⟩)] (by decide) (by decide)).2.2

/-- Claim C2: at most one live poll handle per videoId. Starting a
second poll for a videoId that already has a registered handle first
cancels the existing closure, leaves exactly one registry entry for
that videoId (pointing at the fresh closure), delivers no update in
the process, and the superseded closure delivers no update under any
continuation of the execution. -/
theorem C2_at_most_one_live_poll (s : SysState) (videoId url : String) (pid : Nat)
    (p : PollInst) (maxA itv : Nat) (evs : List Event)
    (hreg : mapLookup s.activePolls videoId = some pid)
    (hp : s.polls[pid]? = some p) (hmax : 0 < maxA) :
    mapLookup (pollForCompletionS s videoId url maxA itv).activePolls videoId
      = some s.polls.length ∧
    countKey (pollForCompletionS s videoId url maxA itv).activePolls videoId = 1 ∧
    (pollForCompletionS s videoId url maxA itv).polls[pid]?
      = some { p with cancelled := true, timerPending := false } ∧
    (pollForCompletionS s videoId url maxA itv).updates = s.updates ∧
    (run (pollForCompletionS s videoId url maxA itv) evs).updates.filter (fromPoll pid)
      = s.updates.filter (fromPoll pid) := by
  have hshape := pollForCompletionS_shape s videoId url pid p maxA itv hreg hp hmax
  have hpidlt : pid < s.polls.length := getElem?_lt hp
  have h3 : (pollForCompletionS s videoId url maxA itv).polls[pid]?
      = some { p with cancelled := true, timerPending := false } := by
    rw [hshape]
    show ((s.polls.set pid { p with cancelled := true, timerPending := false }
        ++ [_]).set s.polls.length _)[pid]? = _
    rw [List.getElem?_set_ne (by omega : s.polls.length ≠ pid)]
    rw [List.getElem?_append_left (by simpa using hpidlt)]
    exact List.getElem?_set_self hpidlt
  refine ⟨?_, ?_, h3, ?_, ?_⟩
  · rw [hshape]
    exact mapLookup_set_self _ _ _
  · rw [hshape]
    exact countKey_set_self _ _ _
  · rw [hshape]
  · have hrs := run_silent _ evs pid ⟨_, h3, rfl⟩
    rw [hrs.2, hshape]

/-- Witness for C2 at a concrete state: superseding the registered
poll of `witnessState`. -/
theorem C2_at_most_one_live_poll_witness :
    mapLookup (pollForCompletionS witnessState "v" "u" 60 5000).activePolls "v"
      = some witnessState.polls.length ∧
    countKey (pollForCompletionS witnessState "v" "u" 60 5000).activePolls "v" = 1 :=
  ⟨(C2_at_most_one_live_poll witnessState "v" "u" 0
      ⟨"v", "u", 60, 5000, false, 0, false, true⟩ 60 5000 []
      (by decide) (by decide) (by decide)).1,
   (C2_at_most_one_live_poll witnessState "v" "u" 0
      ⟨"v", "u", 60, 5000, false, 0, false, true⟩ 60 5000 []
      (by decide) (by decide) (by decide)).2.1⟩

/-- Claim C6: timeout terminality. A poll loop started by
`pollForCompletion(videoId, backendUrl, onUpdate, maxAttempts,
intervalMs)` whose every status check resolves `processing` performs
exactly `maxAttempts` checks (each delivering the `processing`
result), then delivers exactly one terminal `error` ("Transcription
timeout") update as its final delivery, deregisters its handle, and
schedules nothing further (no pending timer, no in-flight request,
and every further timer/response event for it is a no-op). -/
theorem C6_timeout_terminality (vid url : String) (maxA itv : Nat) :
    run initState (timeoutSchedule vid url maxA itv) = doneState vid url maxA itv ∧
    (doneState vid url maxA itv).updates
      = List.replicate maxA (⟨.poll 0, vid, procResult⟩ : UpdateEvent)
        ++ [⟨.poll 0, vid, timeoutResult⟩] ∧
    ((doneState vid url maxA itv).updates.filter
      (fun u => u.result.status = CStatus.error)).length = 1 ∧
    mapLookup (doneState vid url maxA itv).activePolls vid = none ∧
    ((doneState vid url maxA itv).polls[0]?.map
      (fun q => (q.timerPending, q.requestPending, q.attempts))) = some (false, false, maxA) ∧
    (∀ out, step (doneState vid url maxA itv) (.fireTimer 0)
        = doneState vid url maxA itv ∧
      step (doneState vid url maxA itv) (.respondPoll 0 out)
        = doneState vid url maxA itv) := by
  refine ⟨timeoutSchedule_run vid url maxA itv, rfl, ?_, rfl, rfl, ?_⟩
  · show ((List.replicate maxA (⟨.poll 0, vid, procResult⟩ : UpdateEvent)
        ++ [(⟨.poll 0, vid, timeoutResult⟩ : UpdateEvent)]).filter
        (fun u : UpdateEvent => u.result.status = CStatus.error)).length = 1
    rw [List.filter_append, filter_replicate_false _ _ rfl]
    rfl
  · intro out
    constructor
    · rfl
    · rfl

end ClearTranscript
